import Mathlib

/-!
Shallow embedding of the `proper` renderer (Rust) for specification checking.

Conventions used throughout:
* `f32` values are modelled as exact rationals (`ℚ`); the float constants of the
  source are taken at their decimal face value.
* GPU-side handles (buffers, descriptor sets, image views, pipelines, futures)
  are opaque `Nat` identifiers; the external Vulkan collaborators that produce
  them are passed in as oracle functions returning `Except Error _`.
* A Rust panic (`unwrap` on `None`, out-of-bounds index, `slice::chunks(0)`)
  is modelled as `Option.none` at the outermost level of the embedded function.
* `BTreeMap` is modelled as an association list whose insert replaces any
  existing binding for the key.
-/

namespace Proper

/-- Embeds `error.rs`: `Error::AlreadyLoaded` is the only variant inspected by
the claims; all externally-originated variants (Vulkan object creation,
flush/acquire failures, etc.) are collapsed into `vulkan n`. -/
inductive Error where
  | alreadyLoaded : Error
  | vulkan : Nat → Error
deriving DecidableEq, Repr

/-- An RGBA color parameter, `[f32; 4]` in the source. -/
structure Color4 where
  r : ℚ
  g : ℚ
  b : ℚ
  a : ℚ
deriving DecidableEq, Repr

/-- Embeds `SampledImage`: an image view plus sampler (opaque handles). -/
structure SampledImage where
  image : Nat
  sampler : Nat
deriving DecidableEq, Repr

/-- Association-list insert with replace-on-existing-key, modelling
`BTreeMap::insert`. -/
def mapInsert {β : Type} (l : List (String × β)) (k : String) (v : β) : List (String × β) :=
  l.filter (fun p => p.1 ≠ k) ++ [(k, v)]

/-- Embeds `MaterialInstanceCreateInfo` (material.rs): named texture bindings
and named color parameters. -/
structure MaterialInstanceCreateInfo where
  textures : List (String × SampledImage)
  colors : List (String × Color4)
deriving DecidableEq, Repr

/-- Embeds `MaterialInstanceCreateInfo::default()`. -/
def MaterialInstanceCreateInfo.default : MaterialInstanceCreateInfo :=
  { textures := [], colors := [] }

/-- Embeds `MaterialInstanceCreateInfo::with_color` (material.rs lines 145-148). -/
def MaterialInstanceCreateInfo.with_color (info : MaterialInstanceCreateInfo)
    (name : String) (color : Color4) : MaterialInstanceCreateInfo :=
  { info with colors := mapInsert info.colors name color }

/-- Embeds `MaterialInstanceCreateInfo::with_texture`. -/
def MaterialInstanceCreateInfo.with_texture (info : MaterialInstanceCreateInfo)
    (name : String) (sampler : Nat) (image : Nat) : MaterialInstanceCreateInfo :=
  { info with textures := mapInsert info.textures name ⟨image, sampler⟩ }

/-- A device-resident immutable vertex buffer: opaque handle plus its element
count (`model_data.len()` is the draw's vertex count in forward.rs). -/
structure DeviceBuffer where
  handle : Nat
  numVertices : Nat
deriving DecidableEq, Repr

/-- Embeds `Storage` (model.rs): host path or device-resident buffer. -/
inductive Storage where
  | host : String → Storage
  | device : DeviceBuffer → Storage
deriving DecidableEq, Repr

/-- Embeds `Model` (model.rs). The `gfx_queue` field is an external handle and
carries no information relevant to any claim, so it is omitted. -/
structure Model where
  data : Storage
  materialTemplateId : Nat
deriving DecidableEq, Repr

/-- Embeds `Model::is_loaded`. -/
def Model.isLoaded (m : Model) : Bool :=
  match m.data with
  | .device _ => true
  | .host _ => false

/-- Embeds `Model::data()`: `Some` of the buffer iff device-resident. -/
def Model.dataOpt (m : Model) : Option DeviceBuffer :=
  match m.data with
  | .device d => some d
  | .host _ => none

/-- Embeds `Model::load` (model.rs lines 89-96). `loadObj` is the external
`Self::load_obj` collaborator (file IO + GPU upload), passed as an oracle.
Returns the call's result together with the model state after the call. -/
def Model.load (loadObj : String → Except Error DeviceBuffer) (m : Model) :
    Except Error Unit × Model :=
  match m.data with
  | .host path =>
    match loadObj path with
    | .ok buf => (.ok (), { m with data := .device buf })
    | .error e => (.error e, m)
  | .device _ => (.error .alreadyLoaded, m)

/-- Embeds `MeshObject` (scene.rs): a model plus transform-buffer handle, the
descriptor set binding that buffer, and the material-instance handle. -/
structure MeshObject where
  model : Model
  modelBuffer : Nat
  modelSet : Nat
  materialInstance : Nat
deriving DecidableEq, Repr

/-- Embeds `MeshObject::model_material_template_id`. -/
def MeshObject.modelMaterialTemplateId (m : MeshObject) : Nat :=
  m.model.materialTemplateId

/-- Embeds `MeshParameters` (entity.rs). -/
structure MeshParameters where
  materialCreateInfo : MaterialInstanceCreateInfo
  model : Model
deriving DecidableEq, Repr

/-- Embeds `Entity` (entity.rs): position plus optional instantiated mesh and
optional pending mesh parameters. -/
structure Entity where
  position : ℚ × ℚ × ℚ
  mesh : Option MeshObject
  meshParameters : Option MeshParameters
deriving DecidableEq, Repr

/-- Embeds `MaterialEntityGroup` (scene.rs). -/
structure MaterialEntityGroup where
  materialTemplateId : Nat
  entities : List Entity
deriving DecidableEq, Repr

/-- Embeds `Scene` (scene.rs): groups plus the loading list. -/
structure Scene where
  data : List MaterialEntityGroup
  loadingList : List Entity
deriving DecidableEq, Repr

/-- Embeds `Scene::default()`. -/
def Scene.default : Scene :=
  { data := [], loadingList := [] }

/-- The find-or-append of `Scene::add`: append the entity to the first group
whose template id matches, or push a fresh group at the end (mirrors
`iter_mut().find(..)` followed by `push`). -/
def insertEntity : List MaterialEntityGroup → Nat → Entity → List MaterialEntityGroup
  | [], tid, e => [⟨tid, [e]⟩]
  | g :: gs, tid, e =>
    if g.materialTemplateId = tid then
      { g with entities := g.entities ++ [e] } :: gs
    else
      g :: insertEntity gs tid e

/-- Embeds `Scene::add` (scene.rs lines 68-87): entities with an instantiated
mesh go to the group keyed by their mesh's model's material-template id;
entities without a mesh are pushed on the loading list. -/
def Scene.add (s : Scene) (e : Entity) : Scene :=
  match e.mesh with
  | some mesh =>
    { s with data := insertEntity s.data mesh.modelMaterialTemplateId e }
  | none =>
    { s with loadingList := s.loadingList ++ [e] }

/-- Folds a sequence of `Scene::add` calls over the default (empty) scene. -/
def sceneOf (es : List Entity) : Scene :=
  es.foldl Scene.add Scene.default

/-- The material-template id an entity would be grouped under, when it has an
instantiated mesh. -/
def entityTemplate? (e : Entity) : Option Nat :=
  e.mesh.map (fun m => m.modelMaterialTemplateId)

/-! ## Forward system (forward.rs) -/

/-- A material template as the forward system sees it: its current graphics
pipeline (opaque handle). `SimpleMaterial` is the only implementation. -/
structure MaterialTemplate where
  pipeline : Nat
deriving DecidableEq, Repr

/-- Embeds `MaterialRegistry`: templates indexed by `MaterialTemplateId`
(the `usize` index into `data`). -/
structure MaterialRegistry where
  data : List MaterialTemplate
deriving DecidableEq, Repr

/-- Embeds `MaterialRegistry::get` minus the panic: `self.data[id.0]` panics on
an out-of-range id, modelled as `none`. -/
def MaterialRegistry.get? (r : MaterialRegistry) (id : Nat) : Option MaterialTemplate :=
  r.data.get? id

/-- One recorded non-indexed draw together with the per-object bindings issued
just before it in `record_command_buffer_part`: the material descriptor set
(set 1, via `MaterialInstance::bind_data`), the vertex buffer, and the
per-object transform descriptor set (set 2, `mesh.model_set()`). -/
structure DrawCall where
  materialSet : Nat
  vertexBuffer : DeviceBuffer
  modelSet : Nat
  vertexCount : Nat
  instanceCount : Nat
deriving DecidableEq, Repr

/-- A recorded secondary command buffer: the group pipeline and shared scene
set bound at the start, then the per-entity draws. -/
structure SecondaryBuffer where
  pipeline : Nat
  sceneSet : Nat
  draws : List DrawCall
deriving DecidableEq, Repr

/-- The draw recorded for one entity, when its mesh is present and its model is
device-resident. -/
def mkDrawCall (mesh : MeshObject) (d : DeviceBuffer) : DrawCall :=
  { materialSet := mesh.materialInstance
    vertexBuffer := d
    modelSet := mesh.modelSet
    vertexCount := d.numVertices
    instanceCount := 1 }

/-- Per-entity step of the recording loop body: `none` for a Rust panic
(`model.data().unwrap()` on a host-resident model), `some none` when the
entity has no mesh (the `if let` falls through, no draw), `some (some _)` for
a recorded draw. -/
def entityDraw? (e : Entity) : Option (Option DrawCall) :=
  match e.mesh with
  | none => some none
  | some mesh =>
    match mesh.model.dataOpt with
    | none => none
    | some d => some (some (mkDrawCall mesh d))

/-- The loop of `record_command_buffer_part` over a chunk of entities,
collecting draws; `none` propagates a panic. -/
def recordDraws : List Entity → Option (List DrawCall)
  | [] => some []
  | e :: rest =>
    match entityDraw? e with
    | none => none
    | some od =>
      match recordDraws rest with
      | none => none
      | some ds => some (od.toList ++ ds)

/-- Embeds `ForwardSystem::record_command_buffer_part` (forward.rs lines
131-191): binds the template's pipeline and the shared scene set, then records
one draw per mesh-carrying entity of the chunk, in order. -/
def record_command_buffer_part (pipeline sceneSet : Nat) (entities : List Entity) :
    Option SecondaryBuffer :=
  (recordDraws entities).map (fun ds => ⟨pipeline, sceneSet, ds⟩)

/-- Embeds Rust `slice::chunks k` for `k > 0`: contiguous chunks of size `k`,
the last possibly shorter. (The `k = 0` case panics in Rust; callers model
that case themselves and never reach this function with `k = 0`.) -/
def listChunks (k : Nat) (l : List α) : List (List α) :=
  if k = 0 ∨ l.isEmpty then []
  else l.take k :: listChunks k (l.drop k)
termination_by l.length
decreasing_by
  rename_i h
  push_neg at h
  have h1 : 0 < k := Nat.pos_of_ne_zero h.1
  have h2 : 0 < l.length := by
    cases l with
    | nil => simp at h
    | cons a as => simp
  simp only [List.length_drop]
  omega

/-- Recording of one material group inside `record_secondary_buffers`
(forward.rs lines 202-213): look up the template (indexing panic modelled as
`none`), split the entities with `chunks(num_objects / 12)` (which panics when
`num_objects / 12 = 0`, i.e. for groups of fewer than 12 entities), and record
one secondary buffer per chunk. The rayon `par_bridge` collection order is not
deterministic; the model lists chunks in slice order, which is one admissible
order. -/
def recordGroup (reg : MaterialRegistry) (sceneSet : Nat) (g : MaterialEntityGroup) :
    Option (List SecondaryBuffer) :=
  match reg.get? g.materialTemplateId with
  | none => none
  | some t =>
    if g.entities.length / 12 = 0 then none
    else
      (listChunks (g.entities.length / 12) g.entities).foldr
        (fun chunk acc =>
          match record_command_buffer_part t.pipeline sceneSet chunk with
          | none => none
          | some buf =>
            match acc with
            | none => none
            | some bufs => some (buf :: bufs))
        (some [])

/-- Embeds `ForwardSystem::record_secondary_buffers` (forward.rs lines
193-216): record every group and concatenate the resulting secondary buffers. -/
def record_secondary_buffers (reg : MaterialRegistry) (sceneSet : Nat) (s : Scene) :
    Option (List SecondaryBuffer) :=
  s.data.foldr
    (fun g acc =>
      match recordGroup reg sceneSet g with
      | none => none
      | some bufs =>
        match acc with
        | none => none
        | some rest => some (bufs ++ rest))
    (some [])

/-! ## Camera (camera.rs), over exact rationals -/

/-- The exact value of `std::f32::consts::PI`. -/
def piF32 : ℚ := 13176795 / 4194304

/-- The pitch clamp bound: `89.9f32.to_radians()`, i.e. `89.9 * (PI / 180)`
taking the decimal literal at face value. -/
def pitchBound : ℚ := (899 / 10) * (piF32 / 180)

/-- nalgebra's `clamp(val, min, max)`:
`if val > min then (if val < max then val else max) else min`. -/
def naClamp (val lo hi : ℚ) : ℚ :=
  if lo < val then (if val < hi then val else hi) else lo

/-- Rust `f32::round`: round half away from zero, as an exact operation. -/
def rustRound (x : ℚ) : ℤ :=
  if 0 ≤ x then ⌊x + 1 / 2⌋ else -⌊-x + 1 / 2⌋

/-- Embeds `Camera` (camera.rs). -/
structure Camera where
  position : ℚ × ℚ × ℚ
  pitch : ℚ
  yaw : ℚ
deriving DecidableEq, Repr

/-- Embeds `Camera::default()`. -/
def Camera.default : Camera :=
  { position := (0, 0, 0), pitch := 0, yaw := 0 }

/-- Embeds `Camera::rotate_angles` (camera.rs lines 47-51): pitch is clamped
to the `±89.9°` bounds; yaw is incremented and then normalized by subtracting
`round(yaw / 2π) * 2π`. -/
def Camera.rotate_angles (c : Camera) (pitch yaw : ℚ) : Camera :=
  let p := naClamp (c.pitch + pitch) (-pitchBound) pitchBound
  let y0 := c.yaw + yaw
  let y := y0 - (rustRound (y0 / (2 * piF32)) : ℚ) * (2 * piF32)
  { c with pitch := p, yaw := y }

/-! ## Layer stack event dispatch (layer/mod.rs) -/

/-- A layer as `notify_all` observes it for one fixed event: an identifier
(its position identity in the stack) and its `on_event` result for that
event. -/
structure EventLayer where
  id : Nat
  onEvent : Except Error Bool
deriving Repr

/-- The loop of `LayerManager::notify_all` over the already-reversed layer
list, returning the trace of layers whose `on_event` was invoked, in call
order: an error (`?`) or a `true` (consumed) result stops the iteration. -/
def notifyTrace : List EventLayer → List Nat
  | [] => []
  | l :: rest =>
    match l.onEvent with
    | .error _ => [l.id]
    | .ok true => [l.id]
    | .ok false => l.id :: notifyTrace rest

/-- Embeds `LayerManager::notify_all` (layer/mod.rs lines 42-49): iterate the
stack in reverse push order, stopping at the first consumer (or error). The
result is the trace of `on_event` invocations. -/
def notify_all (layers : List EventLayer) : List Nat :=
  notifyTrace layers.reverse

/-! ## Material instance creation (material.rs, SimpleMaterial) -/

/-- Embeds `shader::simple_fs::ty::Material_Data`, the uniform data uploaded
by `SimpleMaterial::create_instance`. -/
structure MaterialData where
  diffuse_color : Color4
deriving DecidableEq, Repr

/-- The template fallback `[1.0; 4]`: opaque white. -/
def opaqueWhite : Color4 := ⟨1, 1, 1, 1⟩

/-- The uniform contents computed by `SimpleMaterial::create_instance`
(material.rs lines 234-240):
`create_info.colors.get("diffuse_color").unwrap_or(&[1.0; 4])`. -/
def SimpleMaterial.materialData (info : MaterialInstanceCreateInfo) : MaterialData :=
  ⟨(info.colors.lookup "diffuse_color").getD opaqueWhite⟩

/-- Embeds the `MaterialInstance` produced by `SimpleMaterial::create_instance`
(material.rs lines 229-263): set index 1 and a descriptor set whose single
binding is the buffer holding the computed material data. The vulkano buffer
and descriptor-set allocations are external fallible collaborators; their
failures only propagate, so the value computed on success is modelled. -/
structure MaterialInstance where
  setIndex : Nat
  materialData : MaterialData
deriving DecidableEq, Repr

/-- Embeds `SimpleMaterial::create_instance`'s successful result. -/
def SimpleMaterial.create_instance (info : MaterialInstanceCreateInfo) : MaterialInstance :=
  { setIndex := 1, materialData := SimpleMaterial.materialData info }

/-! ## Deferred instantiation (entity.rs, scene.rs) -/

/-- External collaborators used by `Entity::instantiate` and
`MeshObject::new`: the obj-file loader plus GPU-resource allocators. -/
structure InstantiateEnv where
  loadObj : String → Except Error DeviceBuffer
  allocMeshObject : Model → MaterialInstanceCreateInfo → Except Error (Nat × Nat × Nat)
  writeTransform : ℚ × ℚ × ℚ → Except Error Unit

/-- Embeds `MeshObject::new` (scene.rs lines 103-139): the transform-buffer,
material-instance and model-set allocations are folded into the
`allocMeshObject` oracle, which yields the three handles
`(model_buffer, material_instance, model_set)`; the registry lookup
`material_registry.get(model.material_template_id())` panics (`none`) on an
out-of-range template id. -/
def MeshObject.new (env : InstantiateEnv) (reg : MaterialRegistry) (model : Model)
    (info : MaterialInstanceCreateInfo) : Option (Except Error MeshObject) :=
  match reg.get? model.materialTemplateId with
  | none => none
  | some _t =>
    match env.allocMeshObject model info with
    | .error e => some (.error e)
    | .ok (mb, mi, ms) =>
      some (.ok { model := model, modelBuffer := mb, modelSet := ms, materialInstance := mi })

/-- Embeds `Entity::instantiate` (entity.rs lines 51-77):
`mesh_parameters.take().unwrap()` panics (`none`) when no parameters are
pending; otherwise load the model, build the mesh object, write the initial
transform, and store the mesh. Errors propagate via `?`. -/
def Entity.instantiate (env : InstantiateEnv) (reg : MaterialRegistry) (e : Entity) :
    Option (Except Error Entity) :=
  match e.meshParameters with
  | none => none
  | some params =>
    match Model.load env.loadObj params.model with
    | (.error err, _) => some (.error err)
    | (.ok _, model') =>
      match MeshObject.new env reg model' params.materialCreateInfo with
      | none => none
      | some (.error err) => some (.error err)
      | some (.ok mesh) =>
        match env.writeTransform e.position with
        | .error err => some (.error err)
        | .ok _ => some (.ok { e with mesh := some mesh, meshParameters := none })

/-- The `while let Some(entity) = self.loading_list.pop()` loop of
`Scene::instantiate_models` (scene.rs lines 55-66), fuelled by the initial
loading-list length (each successful iteration moves one entity from the
loading list into a group, so that fuel always suffices; running out of fuel
would mean a diverging loop and is reported as `none` like a panic). On error
the failed entity has already been popped and is added nowhere; the scene in
the `error` payload is the state left behind. -/
def drainFuel (env : InstantiateEnv) (reg : MaterialRegistry) :
    Nat → Scene → Option (Except (Error × Scene) Scene)
  | 0, s =>
    match s.loadingList.getLast? with
    | none => some (.ok s)
    | some _ => none
  | fuel + 1, s =>
    match s.loadingList.getLast? with
    | none => some (.ok s)
    | some e =>
      let s' : Scene := { s with loadingList := s.loadingList.dropLast }
      match Entity.instantiate env reg e with
      | none => none
      | some (.error err) => some (.error (err, s'))
      | some (.ok e') => drainFuel env reg fuel (s'.add e')

/-- Embeds `Scene::instantiate_models`. -/
def Scene.instantiate_models (env : InstantiateEnv) (reg : MaterialRegistry) (s : Scene) :
    Option (Except (Error × Scene) Scene) :=
  drainFuel env reg s.loadingList.length s

/-- Total number of entities held in the scene's material groups. -/
def Scene.groupedCount (s : Scene) : Nat :=
  (s.data.map (fun g => g.entities.length)).sum

/-! ## Frame / swapchain lifecycle (context.rs) -/

/-- Embeds the `Viewport` produced by `VulkanContext::create_viewport`
(context.rs lines 252-259): origin `[0, h]`, dimensions `[w, -h]`, depth
range `0..1`; the `f32` casts of the `u32` surface size are exact. -/
structure ViewportM where
  origin : Int × Int
  dimensions : Int × Int
  depthRange : ℚ × ℚ
deriving DecidableEq, Repr

/-- Embeds `VulkanContext::create_viewport` on a surface size `(w, h)`. -/
def createViewport (size : Nat × Nat) : ViewportM :=
  { origin := (0, (size.2 : Int))
    dimensions := ((size.1 : Int), -(size.2 : Int))
    depthRange := (0, 1) }

/-- The `Event::SwapchainInvalidated` payload: the per-image views, the
updated viewport, and the updated surface dimensions. -/
structure SwapchainEvent where
  images : List Nat
  viewport : ViewportM
  dimensions : Nat × Nat
deriving DecidableEq, Repr

/-- Embeds the mutable `VulkanContext` state relevant to the frame loop
(surface, device, queue and format are external handles and never change). -/
structure VulkanContext where
  swapchain : Nat
  swapchainImages : List Nat
  viewport : ViewportM
  needSwapchainRecreation : Bool
deriving DecidableEq, Repr

/-- Embeds `VulkanContext::invalidate_surface` (context.rs lines 124-126). -/
def VulkanContext.invalidate_surface (ctx : VulkanContext) : VulkanContext :=
  { ctx with needSwapchainRecreation := true }

/-- External collaborators of `do_frame`: current window inner size,
`Swapchain::recreate` (returning the new swapchain handle and its raw image
list), `ImageView::new_default`, `acquire_next_image` (returning the image
index and the suboptimal flag; the acquire future is an opaque handle chained
by the draw calls), and the end-of-frame present/flush. -/
structure RenderEnv where
  innerSize : Nat × Nat
  recreateSwapchain : Nat × Nat → Except Error (Nat × List Nat)
  newImageView : Nat → Except Error Nat
  acquireNextImage : Except Error (Nat × Bool)
  flushFrame : Except Error Unit

/-- A layer as `do_frame` observes it: its `on_event` response to a
swapchain-invalidated event, and its `on_draw` future transformer. -/
structure FrameLayer where
  onEvent : SwapchainEvent → Except Error Bool
  onDraw : Nat → Nat × ViewportM → Except Error Nat

/-- `Vec::collect::<Result<_, _>>` over `ImageView::new_default`: stop at the
first failure. -/
def createViews (env : RenderEnv) : List Nat → Except Error (List Nat)
  | [] => .ok []
  | img :: rest =>
    match env.newImageView img with
    | .error e => .error e
    | .ok v =>
      match createViews env rest with
      | .error e => .error e
      | .ok vs => .ok (v :: vs)

/-- Embeds `VulkanContext::recreate_swapchain` (context.rs lines 176-192):
recreate from the current surface size, rebuild all per-image views, refresh
the viewport, and return the new dimensions. The `need_swapchain_recreation`
flag is left untouched, exactly as in the source. -/
def VulkanContext.recreate_swapchain (env : RenderEnv) (ctx : VulkanContext) :
    Except Error (VulkanContext × (Nat × Nat)) :=
  match env.recreateSwapchain env.innerSize with
  | .error e => .error e
  | .ok (sc, imgs) =>
    match createViews env imgs with
    | .error e => .error e
    | .ok views =>
      .ok ({ ctx with
              swapchain := sc
              swapchainImages := views
              viewport := createViewport env.innerSize },
           env.innerSize)

/-- The unconditional fan-out of the swapchain-invalidated event (context.rs
lines 142-145): every layer's `on_event` is called in stack order regardless
of the returned bool; an error (`?`) aborts. Returns the indices of the
layers notified, in call order. -/
def deliverAll (ev : SwapchainEvent) : Nat → List FrameLayer → Except Error (List Nat)
  | _, [] => .ok []
  | i, l :: rest =>
    match l.onEvent ev with
    | .error e => .error e
    | .ok _consumed =>
      match deliverAll ev (i + 1) rest with
      | .error e => .error e
      | .ok tr => .ok (i :: tr)

/-- The draw chain of `do_frame` (context.rs lines 162-164): thread the GPU
future through every layer's `on_draw` in stack order. -/
def drawChain (frame : Nat × ViewportM) : List FrameLayer → Nat → Except Error Nat
  | [], fut => .ok fut
  | l :: rest, fut =>
    match l.onDraw fut frame with
    | .error e => .error e
    | .ok fut' => drawChain frame rest fut'

/-- Embeds `VulkanContext::do_frame` (context.rs lines 128-174). Returns the
final context state together with the trace of swapchain-invalidated
deliveries (layer indices in call order); `none` models the panic of
`self.swapchain_images[image_index]` on an out-of-range index. The
end-of-frame `future.wait(None).unwrap()` is an external block modelled as
succeeding. -/
def VulkanContext.do_frame (env : RenderEnv) (layers : List FrameLayer)
    (ctx : VulkanContext) : Option (Except Error (VulkanContext × List Nat)) :=
  let phase1 : Except Error (VulkanContext × List Nat) :=
    if ctx.needSwapchainRecreation then
      match ctx.recreate_swapchain env with
      | .error e => .error e
      | .ok (ctx', dims) =>
        let ev : SwapchainEvent :=
          { images := ctx'.swapchainImages, viewport := ctx'.viewport, dimensions := dims }
        match deliverAll ev 0 layers with
        | .error e => .error e
        | .ok tr => .ok (ctx', tr)
    else .ok (ctx, [])
  match phase1 with
  | .error e => some (.error e)
  | .ok (ctx1, trace) =>
    match env.acquireNextImage with
    | .error e => some (.error e)
    | .ok (imageIndex, suboptimal) =>
      let ctx2 :=
        if suboptimal then { ctx1 with needSwapchainRecreation := true } else ctx1
      match ctx2.swapchainImages.get? imageIndex with
      | none => none
      | some _dest =>
        match drawChain (imageIndex, ctx2.viewport) layers 0 with
        | .error e => some (.error e)
        | .ok _fut =>
          match env.flushFrame with
          | .error e => some (.error e)
          | .ok _ => some (.ok (ctx2, trace))

/-! ## Derived notions used by the statements -/

/-- The draw an entity contributes when recording succeeds: `none` when the
entity has no mesh (it is skipped), otherwise the draw binding its own
material set, vertex buffer and transform set. -/
def entityDrawOf (e : Entity) : Option DrawCall :=
  e.mesh.bind (fun mesh => mesh.model.dataOpt.map (mkDrawCall mesh))

/-- The structural invariant of a `Scene`: group template ids are pairwise
distinct, every entity stored in a group has an instantiated mesh whose
model's material-template id equals the group's id, and every entity on the
loading list has no mesh. -/
def SceneWf (s : Scene) : Prop :=
  (s.data.map MaterialEntityGroup.materialTemplateId).Nodup ∧
  (∀ g ∈ s.data, ∀ e ∈ g.entities, entityTemplate? e = some g.materialTemplateId) ∧
  (∀ e ∈ s.loadingList, e.mesh = none)

/-! ## Concrete fixtures for the evaluated statements -/

/-- A device-resident test entity with material-template id `tid` and
per-entity distinct handles derived from `i`. -/
def testEntity (tid i : Nat) : Entity :=
  { position := ((i : ℚ), 0, 0)
    mesh := some
      { model := { data := .device { handle := i, numVertices := 3 }, materialTemplateId := tid }
        modelBuffer := i
        modelSet := 100 + i
        materialInstance := 200 + i }
    meshParameters := none }

/-- A registry holding one template (id 0). -/
def oneTemplateRegistry : MaterialRegistry := ⟨[⟨7⟩]⟩

/-- A registry holding two templates (ids 0, 1). -/
def twoTemplateRegistry : MaterialRegistry := ⟨[⟨7⟩, ⟨8⟩]⟩

/-- A material group of 13 entities (above the chunking threshold). -/
def group13 : MaterialEntityGroup := ⟨0, (List.range 13).map (testEntity 0)⟩

/-- A material group of 5 entities (below 12: `num_objects / 12 = 0`). -/
def group5 : MaterialEntityGroup := ⟨0, (List.range 5).map (testEntity 0)⟩

/-- The spec's end-to-end scenario: 25 entities of one template, then one
entity of a second template. -/
def scenarioEntities : List Entity :=
  (List.range 25).map (testEntity 0) ++ [testEntity 1 99]

/-- A pending (host-resident, not yet instantiated) entity. -/
def pendingEntity : Entity :=
  { position := (0, 0, 0)
    mesh := none
    meshParameters := some
      { materialCreateInfo := MaterialInstanceCreateInfo.default
        model := { data := .host "cube.obj", materialTemplateId := 0 } } }

/-- An instantiation environment whose collaborators all succeed. -/
def happyInstantiateEnv : InstantiateEnv :=
  { loadObj := fun _ => .ok { handle := 42, numVertices := 36 }
    allocMeshObject := fun _ _ => .ok (1, 2, 3)
    writeTransform := fun _ => .ok () }

/-- A render environment whose collaborators all succeed: surface size
800×600, a recreated swapchain with three images, and image-view handles
offset by 1000. -/
def happyRenderEnv : RenderEnv :=
  { innerSize := (800, 600)
    recreateSwapchain := fun _ => .ok (50, [0, 1, 2])
    newImageView := fun img => .ok (1000 + img)
    acquireNextImage := .ok (1, false)
    flushFrame := .ok () }

end Proper

namespace Proper

/-! ## Shared helper lemmas -/

theorem lookup_filter_ne {β : Type} (l : List (String × β)) (k : String) :
    (l.filter (fun p => p.1 ≠ k)).lookup k = none := by
  induction l with
  | nil => rfl
  | cons p rest ih =>
    obtain ⟨k', v'⟩ := p
    rw [List.filter_cons]
    by_cases h : k' = k
    · simp only [h, ne_eq, not_true_eq_false, decide_False, Bool.false_eq_true, if_false]
      exact ih
    · have hc : (decide ((k', v').1 ≠ k)) = true := by simpa using h
      rw [hc, if_pos rfl, List.lookup]
      have hbeq : (k == k') = false := by
        simp only [beq_eq_false_iff_ne, ne_eq]
        exact fun e => h e.symm
      rw [hbeq]
      exact ih

theorem lookup_mapInsert {β : Type} (l : List (String × β)) (k : String) (v : β) :
    (mapInsert l k v).lookup k = some v := by
  unfold mapInsert
  induction l with
  | nil => simp [List.lookup]
  | cons p rest ih =>
    obtain ⟨k', v'⟩ := p
    rw [List.filter_cons]
    by_cases hk : k' = k
    · simp only [hk, ne_eq, not_true_eq_false, decide_False, Bool.false_eq_true, if_false]
      exact ih
    · have hc : (decide ((k', v').1 ≠ k)) = true := by simpa using hk
      rw [hc, if_pos rfl, List.cons_append, List.lookup]
      have hbeq : (k == k') = false := by
        simp only [beq_eq_false_iff_ne, ne_eq]
        exact fun e => hk e.symm
      rw [hbeq]
      exact ih

theorem notifyTrace_all_pass (ls : List EventLayer)
    (h : ∀ l ∈ ls, l.onEvent = .ok false) :
    notifyTrace ls = ls.map EventLayer.id := by
  induction ls with
  | nil => rfl
  | cons l rest ih =>
    have hl : l.onEvent = .ok false := h l (List.mem_cons_self l rest)
    rw [notifyTrace, hl]
    rw [ih (fun x hx => h x (List.mem_cons_of_mem l hx))]
    rfl

/-! ## C8: Model::load on Device-resident vs Host-resident storage -/

/-- C8: `Model::load` on an already-Device-resident model returns the
`AlreadyLoaded` error and leaves the model state (in particular its device
buffer) completely unchanged; on a Host-resident model it performs the
Host-to-Device transition exactly when the external loader succeeds, and
leaves the model Host-resident when the loader fails. -/
theorem c8_load_already_loaded (f : String → Except Error DeviceBuffer) (m : Model) :
    (∀ buf, m.data = .device buf → Model.load f m = (.error .alreadyLoaded, m)) ∧
    (∀ path, m.data = .host path →
      (∀ buf, f path = .ok buf →
        Model.load f m = (.ok (), { m with data := .device buf }) ∧
        ((Model.load f m).2.isLoaded = true)) ∧
      (∀ e, f path = .error e → Model.load f m = (.error e, m))) := by
  refine ⟨fun buf hbuf => ?_, fun path hpath => ⟨fun buf hok => ?_, fun e herr => ?_⟩⟩
  · simp [Model.load, hbuf]
  · constructor
    · simp [Model.load, hpath, hok]
    · simp [Model.load, hpath, hok, Model.isLoaded]
  · simp [Model.load, hpath, herr]

/-- Witness for C8 at concrete inputs: a device-resident model rejects a
second load, and a host-resident model transitions to device residency. -/
theorem c8_load_already_loaded_witness :
    Model.load (fun _ => .ok ⟨42, 36⟩) ⟨.device ⟨5, 9⟩, 0⟩ =
      (.error .alreadyLoaded, ⟨.device ⟨5, 9⟩, 0⟩) ∧
    Model.load (fun _ => .ok ⟨42, 36⟩) ⟨.host "cube.obj", 0⟩ =
      (.ok (), ⟨.device ⟨42, 36⟩, 0⟩) := by
  constructor
  · exact (c8_load_already_loaded (fun _ => .ok ⟨42, 36⟩) ⟨.device ⟨5, 9⟩, 0⟩).1 ⟨5, 9⟩ rfl
  · exact (((c8_load_already_loaded (fun _ => .ok ⟨42, 36⟩)
      ⟨.host "cube.obj", 0⟩).2 "cube.obj" rfl).1 ⟨42, 36⟩ rfl).1

/-! ## C9: SimpleMaterial::create_instance diffuse-color defaulting -/

/-- C9: the diffuse color uploaded by `SimpleMaterial::create_instance` is the
opaque-white template fallback when no `diffuse_color` entry was set in the
create info, and is exactly the configured value when one was set via
`with_color`. -/
theorem c9_diffuse_color_default (info : MaterialInstanceCreateInfo) :
    (info.colors.lookup "diffuse_color" = none →
      (SimpleMaterial.create_instance info).materialData = ⟨opaqueWhite⟩) ∧
    (∀ c, (SimpleMaterial.create_instance
        (info.with_color "diffuse_color" c)).materialData = ⟨c⟩) := by
  constructor
  · intro hnone
    simp [SimpleMaterial.create_instance, SimpleMaterial.materialData, hnone]
  · intro c
    simp [SimpleMaterial.create_instance, SimpleMaterial.materialData,
      MaterialInstanceCreateInfo.with_color, lookup_mapInsert]

/-- Witness for C9: an unconfigured create info yields opaque white; a
configured one yields its configured color. -/
theorem c9_diffuse_color_default_witness :
    (SimpleMaterial.create_instance MaterialInstanceCreateInfo.default).materialData =
      ⟨opaqueWhite⟩ ∧
    (SimpleMaterial.create_instance
        (MaterialInstanceCreateInfo.default.with_color "diffuse_color"
          ⟨1/2, 0, 0, 1⟩)).materialData = ⟨⟨1/2, 0, 0, 1⟩⟩ := by
  constructor
  · exact (c9_diffuse_color_default MaterialInstanceCreateInfo.default).1 rfl
  · exact (c9_diffuse_color_default MaterialInstanceCreateInfo.default).2 ⟨1/2, 0, 0, 1⟩

/-! ## C5: layer event dispatch order and short-circuit -/

/-- C5: `notify_all` visits layers in reverse push order. For a stack pushed
as A, B, C where C does not consume and B consumes, the invocation trace is
exactly C then B: C is called exactly once and first, B exactly once, and A is
never called. Moreover, for any stack in which no layer consumes, the trace is
the full stack in reverse push order. -/
theorem c5_event_dispatch (A B C : EventLayer)
    (hC : C.onEvent = .ok false) (hB : B.onEvent = .ok true)
    (hBC : B.id ≠ C.id) (hAC : A.id ≠ C.id) (hAB : A.id ≠ B.id) :
    notify_all [A, B, C] = [C.id, B.id] ∧
    (notify_all [A, B, C]).head? = some C.id ∧
    (notify_all [A, B, C]).count C.id = 1 ∧
    (notify_all [A, B, C]).count B.id = 1 ∧
    A.id ∉ notify_all [A, B, C] ∧
    (∀ ls : List EventLayer, (∀ l ∈ ls, l.onEvent = .ok false) →
      notify_all ls = (ls.map EventLayer.id).reverse) := by
  have htrace : notify_all [A, B, C] = [C.id, B.id] := by
    simp [notify_all, notifyTrace, hC, hB]
  refine ⟨htrace, ?_, ?_, ?_, ?_, ?_⟩
  · rw [htrace]; rfl
  · rw [htrace]
    simp [List.count_cons, hBC]
  · rw [htrace]
    simp [List.count_cons, Ne.symm hBC]
  · rw [htrace]
    simp [hAC, hAB]
  · intro ls hls
    rw [notify_all, notifyTrace_all_pass ls.reverse (fun l hl => hls l (List.mem_reverse.mp hl)),
      List.map_reverse]

/-- Witness for C5 at a concrete three-layer stack. -/
theorem c5_event_dispatch_witness :
    notify_all [⟨0, .ok false⟩, ⟨1, .ok true⟩, ⟨2, .ok false⟩] = [2, 1] := by
  exact (c5_event_dispatch ⟨0, .ok false⟩ ⟨1, .ok true⟩ ⟨2, .ok false⟩
    rfl rfl (by decide) (by decide) (by decide)).1

/-! ## C7: camera pitch clamp and yaw normalization -/

theorem naClamp_mem (v lo hi : ℚ) (h : lo ≤ hi) :
    lo ≤ naClamp v lo hi ∧ naClamp v lo hi ≤ hi := by
  unfold naClamp
  split
  · split
    · constructor <;> linarith
    · constructor <;> linarith
  · exact ⟨le_refl _, h⟩

theorem rustRound_close (t : ℚ) : |t - (rustRound t : ℚ)| ≤ 1 / 2 := by
  unfold rustRound
  split
  · have h1 : ((⌊t + 1 / 2⌋ : ℤ) : ℚ) ≤ t + 1 / 2 := Int.floor_le _
    have h2 : t + 1 / 2 < (⌊t + 1 / 2⌋ : ℤ) + 1 := Int.lt_floor_add_one _
    rw [abs_le]
    constructor <;> push_cast at * <;> linarith
  · have h1 : ((⌊-t + 1 / 2⌋ : ℤ) : ℚ) ≤ -t + 1 / 2 := Int.floor_le _
    have h2 : -t + 1 / 2 < (⌊-t + 1 / 2⌋ : ℤ) + 1 := Int.lt_floor_add_one _
    rw [abs_le]
    constructor <;> push_cast at * <;> linarith

theorem yaw_norm_bound (y0 : ℚ) :
    |y0 - (rustRound (y0 / (2 * piF32)) : ℚ) * (2 * piF32)| ≤ piF32 := by
  have hp : (0 : ℚ) < piF32 := by norm_num [piF32]
  have h2p : (0 : ℚ) < 2 * piF32 := by linarith
  set t := y0 / (2 * piF32) with ht
  have hy0 : y0 = t * (2 * piF32) := by
    rw [ht]; field_simp
  have hclose := rustRound_close t
  have hfac : y0 - (rustRound t : ℚ) * (2 * piF32) = (t - (rustRound t : ℚ)) * (2 * piF32) := by
    rw [hy0]; ring
  rw [hfac, abs_mul, abs_of_pos h2p]
  calc |t - (rustRound t : ℚ)| * (2 * piF32) ≤ (1 / 2) * (2 * piF32) :=
        mul_le_mul_of_nonneg_right hclose (le_of_lt h2p)
    _ = piF32 := by ring

/-- C7 (amended): after any `rotate_angles` call, from any starting state, the
pitch lies in the closed clamp interval `±89.9°` (in radians) and the yaw lies
in the closed interval `[-π, π]` — closed at the lower end too, because Rust's
round-half-away-from-zero sends a post-increment yaw of `+π` to `-π`. -/
theorem c7_rotate_angles_bounds (c : Camera) (dp dy : ℚ) :
    -pitchBound ≤ (c.rotate_angles dp dy).pitch ∧
    (c.rotate_angles dp dy).pitch ≤ pitchBound ∧
    -piF32 ≤ (c.rotate_angles dp dy).yaw ∧
    (c.rotate_angles dp dy).yaw ≤ piF32 := by
  have hb : (0 : ℚ) ≤ pitchBound := by norm_num [pitchBound, piF32]
  have hclamp := naClamp_mem (c.pitch + dp) (-pitchBound) pitchBound (by linarith)
  have hyaw := yaw_norm_bound (c.yaw + dy)
  rw [abs_le] at hyaw
  refine ⟨?_, ?_, ?_, ?_⟩
  · exact hclamp.1
  · exact hclamp.2
  · simpa [Camera.rotate_angles] using hyaw.1
  · simpa [Camera.rotate_angles] using hyaw.2

/-- Counterexample to C7 as stated: starting from the default camera, a single
`rotate_angles(0, π)` call leaves the yaw at exactly `-π`, which is outside
the claimed normalization interval `(-π, π]`. -/
theorem c7_yaw_counterexample :
    (Camera.default.rotate_angles 0 piF32).yaw = -piF32 ∧
    ¬(-piF32 < (Camera.default.rotate_angles 0 piF32).yaw ∧
      (Camera.default.rotate_angles 0 piF32).yaw ≤ piF32) := by
  have h : (Camera.default.rotate_angles 0 piF32).yaw = -piF32 := by
    norm_num [Camera.rotate_angles, Camera.default, rustRound, piF32]
  exact ⟨h, fun hc => absurd (h ▸ hc.1) (lt_irrefl _)⟩

/-! ## C1, C2: parallel secondary-buffer recording -/

theorem listChunks_flatten {α : Type} (k : Nat) (hk : k ≠ 0) (l : List α) :
    (listChunks k l).flatten = l := by
  rw [listChunks]
  by_cases h : k = 0 ∨ l.isEmpty
  · rw [if_pos h]
    rcases h with h | h
    · exact absurd h hk
    · rw [List.flatten_nil]
      exact (List.isEmpty_iff.mp h).symm
  · rw [if_neg h, List.flatten_cons, listChunks_flatten k hk (l.drop k), List.take_append_drop]
termination_by l.length
decreasing_by
  push_neg at h
  have h1 : 0 < k := Nat.pos_of_ne_zero hk
  have h2 : 0 < l.length := by
    cases l with
    | nil => simp at h
    | cons a as => simp
  simp only [List.length_drop]
  omega

theorem recordDraws_eq (l : List Entity)
    (h : ∀ e ∈ l, ∃ m d, e.mesh = some m ∧ m.model.dataOpt = some d) :
    recordDraws l = some (l.filterMap entityDrawOf) := by
  induction l with
  | nil => rfl
  | cons e rest ih =>
    obtain ⟨m, d, hm, hd⟩ := h e (List.mem_cons_self e rest)
    have he : entityDraw? e = some (some (mkDrawCall m d)) := by
      simp [entityDraw?, hm, hd]
    have hdraw : entityDrawOf e = some (mkDrawCall m d) := by
      simp [entityDrawOf, hm, hd]
    rw [recordDraws, he, ih (fun x hx => h x (List.mem_cons_of_mem e hx))]
    simp [List.filterMap_cons, hdraw]

theorem record_part_eq (p set : Nat) (l : List Entity)
    (h : ∀ e ∈ l, ∃ m d, e.mesh = some m ∧ m.model.dataOpt = some d) :
    record_command_buffer_part p set l = some ⟨p, set, l.filterMap entityDrawOf⟩ := by
  rw [record_command_buffer_part, recordDraws_eq l h]
  rfl

theorem recordChunks_eq (p set : Nat) (cs : List (List Entity))
    (h : ∀ c ∈ cs, record_command_buffer_part p set c =
      some ⟨p, set, c.filterMap entityDrawOf⟩) :
    cs.foldr
      (fun chunk acc =>
        match record_command_buffer_part p set chunk with
        | none => none
        | some buf =>
          match acc with
          | none => none
          | some bufs => some (buf :: bufs))
      (some []) =
    some (cs.map (fun c => (⟨p, set, c.filterMap entityDrawOf⟩ : SecondaryBuffer))) := by
  induction cs with
  | nil => rfl
  | cons c rest ih =>
    rw [List.foldr_cons, ih (fun x hx => h x (List.mem_cons_of_mem c hx)),
      h c (List.mem_cons_self c rest), List.map_cons]

theorem flatten_filterMap {α β : Type} (f : α → Option β) (cs : List (List α)) :
    (cs.map (fun c => c.filterMap f)).flatten = cs.flatten.filterMap f := by
  induction cs with
  | nil => rfl
  | cons c rest ih =>
    rw [List.map_cons, List.flatten_cons, List.flatten_cons, ih, List.filterMap_append]

theorem filterMap_all_isSome {α β : Type} (f : α → Option β) (l : List α)
    (h : ∀ a ∈ l, (f a).isSome) :
    (l.filterMap f).length = l.length ∧
    ∀ i (hi : i < l.length), (l.filterMap f).get? i = f (l.get ⟨i, hi⟩) := by
  induction l with
  | nil => exact ⟨rfl, fun i hi => absurd hi (Nat.not_lt_zero i)⟩
  | cons a rest ih =>
    obtain ⟨b, hb⟩ := Option.isSome_iff_exists.mp (h a (List.mem_cons_self a rest))
    obtain ⟨ihlen, ihget⟩ := ih (fun x hx => h x (List.mem_cons_of_mem a hx))
    rw [List.filterMap_cons, hb]
    refine ⟨by simpa using ihlen, fun i hi => ?_⟩
    cases i with
    | zero => simp [hb]
    | succ j =>
      have hj : j < rest.length := by simpa using hi
      simpa using ihget j hj

/-- C1: for a material group of more than 12 entities (all render-eligible:
instantiated mesh, device-resident model), the per-chunk recording of
`record_secondary_buffers` succeeds and the concatenation of the recorded
draw calls across all chunks is exactly one draw per entity of the group, in
order, the i-th draw binding the i-th entity's own vertex buffer and its own
transform descriptor set — no entity dropped or duplicated. -/
theorem c1_parallel_recording_partition (reg : MaterialRegistry) (sceneSet : Nat)
    (g : MaterialEntityGroup)
    (ht : g.materialTemplateId < reg.data.length)
    (hm : ∀ e ∈ g.entities, ∃ m d, e.mesh = some m ∧ m.model.dataOpt = some d)
    (hN : 12 < g.entities.length) :
    ∃ bufs, recordGroup reg sceneSet g = some bufs ∧
      (bufs.map SecondaryBuffer.draws).flatten = g.entities.filterMap entityDrawOf ∧
      (bufs.map SecondaryBuffer.draws).flatten.length = g.entities.length ∧
      ∀ i (hi : i < g.entities.length), ∃ m d,
        (g.entities.get ⟨i, hi⟩).mesh = some m ∧ m.model.dataOpt = some d ∧
        (bufs.map SecondaryBuffer.draws).flatten.get? i = some (mkDrawCall m d) := by
  have hk : g.entities.length / 12 ≠ 0 :=
    Nat.pos_iff_ne_zero.mp (Nat.div_pos (by omega) (by omega))
  have hget : ∃ t, reg.get? g.materialTemplateId = some t := by
    rw [MaterialRegistry.get?]
    exact ⟨_, List.get?_eq_get ht⟩
  obtain ⟨t, hget⟩ := hget
  have hflat := listChunks_flatten (g.entities.length / 12) hk g.entities
  have hchunk : ∀ c ∈ listChunks (g.entities.length / 12) g.entities, ∀ e ∈ c,
      ∃ m d, e.mesh = some m ∧ m.model.dataOpt = some d := by
    intro c hc e he
    exact hm e (hflat ▸ List.mem_flatten.mpr ⟨c, hc, he⟩)
  have hrec : recordGroup reg sceneSet g =
      some ((listChunks (g.entities.length / 12) g.entities).map
        (fun c => (⟨t.pipeline, sceneSet, c.filterMap entityDrawOf⟩ : SecondaryBuffer))) := by
    simp only [recordGroup, hget, if_neg hk]
    exact recordChunks_eq t.pipeline sceneSet _
      (fun c hc => record_part_eq t.pipeline sceneSet c (hchunk c hc))
  have hdraws : (((listChunks (g.entities.length / 12) g.entities).map
      (fun c => (⟨t.pipeline, sceneSet, c.filterMap entityDrawOf⟩ : SecondaryBuffer))).map
        SecondaryBuffer.draws).flatten = g.entities.filterMap entityDrawOf := by
    rw [List.map_map]
    have hcomp : (SecondaryBuffer.draws ∘ fun (c : List Entity) =>
        (⟨t.pipeline, sceneSet, c.filterMap entityDrawOf⟩ : SecondaryBuffer)) =
        fun (c : List Entity) => c.filterMap entityDrawOf := rfl
    rw [hcomp, flatten_filterMap, hflat]
  have hsome : ∀ e ∈ g.entities, (entityDrawOf e).isSome := by
    intro e he
    obtain ⟨m, d, hm', hd'⟩ := hm e he
    simp [entityDrawOf, hm', hd']
  refine ⟨_, hrec, hdraws, ?_, ?_⟩
  · rw [hdraws]
    exact (filterMap_all_isSome entityDrawOf g.entities hsome).1
  · intro i hi
    obtain ⟨m, d, hm', hd'⟩ := hm (g.entities.get ⟨i, hi⟩) (List.get_mem _ _ _)
    refine ⟨m, d, hm', hd', ?_⟩
    rw [hdraws, (filterMap_all_isSome entityDrawOf g.entities hsome).2 i hi]
    generalize g.entities.get ⟨i, hi⟩ = e at hm' hd' ⊢
    simp [entityDrawOf, hm', hd']

/-- Witness for C1: a 13-entity group records successfully with exactly 13
draws in total. -/
theorem c1_parallel_recording_partition_witness :
    ∃ bufs, recordGroup oneTemplateRegistry 5 group13 = some bufs ∧
      (bufs.map SecondaryBuffer.draws).flatten.length = group13.entities.length := by
  obtain ⟨bufs, h1, _, h3, _⟩ :=
    c1_parallel_recording_partition oneTemplateRegistry 5 group13
      (by decide)
      (by
        intro e he
        simp only [group13, List.mem_map] at he
        obtain ⟨i, _, rfl⟩ := he
        exact ⟨_, _, rfl, rfl⟩)
      (by decide)
  exact ⟨bufs, h1, h3⟩

/-- C2 (code bug): `record_secondary_buffers` has no below-threshold branch at
all. For every group of fewer than 12 entities, `num_objects / 12 = 0`, so the
recording calls `slice::chunks(0)`, which panics — it does not record the
group as a single secondary buffer. -/
theorem c2_small_group_panics (reg : MaterialRegistry) (sceneSet : Nat)
    (g : MaterialEntityGroup) (h : g.entities.length < 12) :
    recordGroup reg sceneSet g = none := by
  have h12 : g.entities.length / 12 = 0 := Nat.div_eq_of_lt h
  cases hget : reg.get? g.materialTemplateId with
  | none => simp [recordGroup, hget]
  | some t => simp [recordGroup, hget, h12]

/-- Witness for C2: a concrete 5-entity group (the spec's own end-to-end
scenario contains a 1-entity group) makes the recording panic. -/
theorem c2_small_group_panics_witness :
    recordGroup oneTemplateRegistry 5 group5 = none :=
  c2_small_group_panics oneTemplateRegistry 5 group5 (by decide)

/-! ## C3, C4: Scene::add grouping invariants -/

theorem insertEntity_ids (gs : List MaterialEntityGroup) (tid : Nat) (e : Entity) :
    (insertEntity gs tid e).map MaterialEntityGroup.materialTemplateId =
      if tid ∈ gs.map MaterialEntityGroup.materialTemplateId then
        gs.map MaterialEntityGroup.materialTemplateId
      else
        gs.map MaterialEntityGroup.materialTemplateId ++ [tid] := by
  induction gs with
  | nil => simp [insertEntity]
  | cons g rest ih =>
    by_cases h : g.materialTemplateId = tid
    · simp [insertEntity, h]
    · rw [insertEntity, if_neg h, List.map_cons, ih, List.map_cons]
      by_cases hmem : tid ∈ rest.map MaterialEntityGroup.materialTemplateId
      · rw [if_pos hmem, if_pos (List.mem_cons_of_mem _ hmem)]
      · rw [if_neg hmem, if_neg ?_, List.cons_append]
        intro hc
        rcases List.mem_cons.mp hc with hc | hc
        · exact h hc.symm
        · exact hmem hc

theorem insertEntity_entity_mem (gs : List MaterialEntityGroup) (tid : Nat) (e : Entity) :
    ∀ g' ∈ insertEntity gs tid e, ∀ x ∈ g'.entities,
      (x = e ∧ g'.materialTemplateId = tid) ∨
      (∃ g ∈ gs, g.materialTemplateId = g'.materialTemplateId ∧ x ∈ g.entities) := by
  induction gs with
  | nil =>
    intro g' hg' x hx
    rw [insertEntity, List.mem_singleton] at hg'
    subst hg'
    rw [List.mem_singleton] at hx
    exact Or.inl ⟨hx, rfl⟩
  | cons g rest ih =>
    intro g' hg' x hx
    by_cases h : g.materialTemplateId = tid
    · rw [insertEntity, if_pos h, List.mem_cons] at hg'
      rcases hg' with hg' | hg'
      · subst hg'
        rcases List.mem_append.mp hx with hx | hx
        · exact Or.inr ⟨g, List.mem_cons_self g rest, rfl, hx⟩
        · exact Or.inl ⟨List.mem_singleton.mp hx, h⟩
      · exact Or.inr ⟨g', List.mem_cons_of_mem g hg', rfl, hx⟩
    · rw [insertEntity, if_neg h, List.mem_cons] at hg'
      rcases hg' with hg' | hg'
      · refine Or.inr ⟨g', ?_, rfl, hx⟩
        rw [hg']
        exact List.mem_cons_self _ _
      · rcases ih g' hg' x hx with hl | ⟨g₀, hg₀, hid, hx₀⟩
        · exact Or.inl hl
        · exact Or.inr ⟨g₀, List.mem_cons_of_mem g hg₀, hid, hx₀⟩

theorem insertEntity_self (gs : List MaterialEntityGroup) (tid : Nat) (e : Entity) :
    ∃ g' ∈ insertEntity gs tid e, g'.materialTemplateId = tid ∧ e ∈ g'.entities := by
  induction gs with
  | nil =>
    exact ⟨⟨tid, [e]⟩, List.mem_singleton.mpr rfl, rfl, List.mem_singleton.mpr rfl⟩
  | cons g rest ih =>
    by_cases h : g.materialTemplateId = tid
    · refine ⟨{ g with entities := g.entities ++ [e] }, ?_, h, ?_⟩
      · rw [insertEntity, if_pos h]
        exact List.mem_cons_self _ _
      · exact List.mem_append.mpr (Or.inr (List.mem_singleton.mpr rfl))
    · obtain ⟨g', hg', hid, he⟩ := ih
      refine ⟨g', ?_, hid, he⟩
      rw [insertEntity, if_neg h]
      exact List.mem_cons_of_mem g hg'

theorem insertEntity_mono (gs : List MaterialEntityGroup) (tid : Nat) (e : Entity)
    (t : Nat) (x : Entity)
    (h : ∃ g ∈ gs, g.materialTemplateId = t ∧ x ∈ g.entities) :
    ∃ g' ∈ insertEntity gs tid e, g'.materialTemplateId = t ∧ x ∈ g'.entities := by
  induction gs with
  | nil =>
    obtain ⟨g, hg, _⟩ := h
    exact absurd hg (List.not_mem_nil g)
  | cons g rest ih =>
    obtain ⟨g₀, hg₀, hid, hx⟩ := h
    by_cases hc : g.materialTemplateId = tid
    · rw [insertEntity, if_pos hc]
      rcases List.mem_cons.mp hg₀ with hg₀ | hg₀
      · subst hg₀
        exact ⟨{ g₀ with entities := g₀.entities ++ [e] }, List.mem_cons_self _ _, hid,
          List.mem_append.mpr (Or.inl hx)⟩
      · exact ⟨g₀, List.mem_cons_of_mem _ hg₀, hid, hx⟩
    · rw [insertEntity, if_neg hc]
      rcases List.mem_cons.mp hg₀ with hg₀ | hg₀
      · subst hg₀
        exact ⟨g₀, List.mem_cons_self _ _, hid, hx⟩
      · obtain ⟨g', hg', hid', hx'⟩ := ih ⟨g₀, hg₀, hid, hx⟩
        exact ⟨g', List.mem_cons_of_mem _ hg', hid', hx'⟩

theorem add_wf (s : Scene) (e : Entity) (hwf : SceneWf s) : SceneWf (s.add e) := by
  obtain ⟨hnodup, hgroups, hloading⟩ := hwf
  cases he : e.mesh with
  | none =>
    refine ⟨?_, ?_, ?_⟩
    · simpa [Scene.add, he] using hnodup
    · simpa [Scene.add, he] using hgroups
    · intro x hx
      simp only [Scene.add, he] at hx
      rcases List.mem_append.mp hx with hx | hx
      · exact hloading x hx
      · rw [List.mem_singleton.mp hx]
        exact he
  | some m =>
    refine ⟨?_, ?_, ?_⟩
    · simp only [Scene.add, he]
      rw [insertEntity_ids]
      split
      · exact hnodup
      · rename_i hmem
        simp [List.nodup_append, hnodup, hmem]
    · simp only [Scene.add, he]
      intro g' hg' x hx
      rcases insertEntity_entity_mem s.data m.modelMaterialTemplateId e g' hg' x hx with
        ⟨hxe, hid⟩ | ⟨g, hg, hid, hxg⟩
      · subst hxe
        simp [entityTemplate?, he, hid]
      · rw [← hid]
        exact hgroups g hg x hxg
    · simpa [Scene.add, he] using hloading

theorem foldl_add_wf (es : List Entity) :
    ∀ s : Scene, SceneWf s → SceneWf (es.foldl Scene.add s) := by
  induction es with
  | nil => exact fun s h => h
  | cons e rest ih =>
    intro s h
    exact ih (s.add e) (add_wf s e h)

theorem wf_default : SceneWf Scene.default := by
  refine ⟨?_, ?_, ?_⟩ <;> simp [Scene.default]

theorem foldl_add_loading (es : List Entity) :
    ∀ s : Scene, (es.foldl Scene.add s).loadingList =
      s.loadingList ++ es.filter (fun e => e.mesh.isNone) := by
  induction es with
  | nil => simp
  | cons e rest ih =>
    intro s
    rw [List.foldl_cons, ih (s.add e), List.filter_cons]
    cases he : e.mesh with
    | none => simp [Scene.add, he]
    | some m => simp [Scene.add, he]

theorem foldl_add_mono (es : List Entity) :
    ∀ (s : Scene) (t : Nat) (x : Entity),
      (∃ g ∈ s.data, g.materialTemplateId = t ∧ x ∈ g.entities) →
      ∃ g ∈ (es.foldl Scene.add s).data, g.materialTemplateId = t ∧ x ∈ g.entities := by
  induction es with
  | nil => exact fun s t x h => h
  | cons e rest ih =>
    intro s t x h
    refine ih (s.add e) t x ?_
    cases he : e.mesh with
    | none => simpa [Scene.add, he] using h
    | some m =>
      simp only [Scene.add, he]
      exact insertEntity_mono s.data m.modelMaterialTemplateId e t x h

theorem foldl_add_mem (es : List Entity) :
    ∀ (s : Scene) (e : Entity) (m : MeshObject), e ∈ es → e.mesh = some m →
      ∃ g ∈ (es.foldl Scene.add s).data,
        g.materialTemplateId = m.modelMaterialTemplateId ∧ e ∈ g.entities := by
  induction es with
  | nil =>
    intro s e m he
    exact absurd he (List.not_mem_nil e)
  | cons a rest ih =>
    intro s e m he hm
    rcases List.mem_cons.mp he with he | he
    · subst he
      rw [List.foldl_cons]
      refine foldl_add_mono rest (s.add e) m.modelMaterialTemplateId e ?_
      simp only [Scene.add, hm]
      exact insertEntity_self s.data m.modelMaterialTemplateId e
    · exact ih (s.add a) e m he hm

theorem wf_unique_group (s : Scene) (hwf : SceneWf s) (x : Entity)
    (g₁ g₂ : MaterialEntityGroup) (h₁ : g₁ ∈ s.data) (h₂ : g₂ ∈ s.data)
    (hx₁ : x ∈ g₁.entities) (hx₂ : x ∈ g₂.entities) : g₁ = g₂ := by
  have e₁ := hwf.2.1 g₁ h₁ x hx₁
  have e₂ := hwf.2.1 g₂ h₂ x hx₂
  have hid : g₁.materialTemplateId = g₂.materialTemplateId :=
    Option.some_injective _ (e₁.symm.trans e₂)
  exact List.inj_on_of_nodup_map hwf.1 h₁ h₂ hid

/-- C3: for any sequence of `Scene::add` calls on an initially empty scene,
every added entity with an instantiated mesh lies in exactly one material
group, every group containing it carries its mesh's model's material-template
id, and it is not on the loading list; every added entity without a mesh lies
on the loading list and in no group. -/
theorem c3_scene_partition (es : List Entity) (e : Entity) (he : e ∈ es) :
    (∀ m, e.mesh = some m →
      (∃! g, g ∈ (sceneOf es).data ∧ e ∈ g.entities) ∧
      (∀ g ∈ (sceneOf es).data, e ∈ g.entities →
        g.materialTemplateId = m.modelMaterialTemplateId) ∧
      e ∉ (sceneOf es).loadingList) ∧
    (e.mesh = none →
      e ∈ (sceneOf es).loadingList ∧ ∀ g ∈ (sceneOf es).data, e ∉ g.entities) := by
  have hwf : SceneWf (sceneOf es) := foldl_add_wf es Scene.default wf_default
  have hload : (sceneOf es).loadingList = es.filter (fun e => e.mesh.isNone) := by
    rw [sceneOf, foldl_add_loading es Scene.default]
    rfl
  constructor
  · intro m hm
    obtain ⟨g, hg, hid, hxe⟩ := foldl_add_mem es Scene.default e m he hm
    have htmpl : ∀ g' ∈ (sceneOf es).data, e ∈ g'.entities →
        g'.materialTemplateId = m.modelMaterialTemplateId := by
      intro g' hg' hxe'
      have h1 := hwf.2.1 g' hg' e hxe'
      simp [entityTemplate?, hm] at h1
      omega
    refine ⟨⟨g, ⟨hg, hxe⟩, ?_⟩, htmpl, ?_⟩
    · rintro g' ⟨hg', hxe'⟩
      exact wf_unique_group (sceneOf es) hwf e g' g hg' hg hxe' hxe
    · intro hcontra
      rw [hload, List.mem_filter] at hcontra
      rw [hm] at hcontra
      simp at hcontra
  · intro hnone
    constructor
    · rw [hload, List.mem_filter, hnone]
      exact ⟨he, rfl⟩
    · intro g hg hxe
      have h1 := hwf.2.1 g hg e hxe
      rw [entityTemplate?, hnone] at h1
      exact Option.noConfusion h1

/-- Witness for C3: in the end-to-end scenario list, the first entity of
template 0 lies in exactly one group. -/
theorem c3_scene_partition_witness :
    ∃! g, g ∈ (sceneOf scenarioEntities).data ∧ testEntity 0 0 ∈ g.entities := by
  exact ((c3_scene_partition scenarioEntities (testEntity 0 0) (by decide)).1
    _ rfl).1

theorem foldl_add_ids_toFinset (es : List Entity) :
    ∀ s : Scene,
      ((es.foldl Scene.add s).data.map MaterialEntityGroup.materialTemplateId).toFinset =
      (s.data.map MaterialEntityGroup.materialTemplateId).toFinset ∪
        (es.filterMap entityTemplate?).toFinset := by
  induction es with
  | nil => simp
  | cons e rest ih =>
    intro s
    rw [List.foldl_cons, ih (s.add e)]
    cases he : e.mesh with
    | none =>
      have h1 : (s.add e).data = s.data := by simp [Scene.add, he]
      have h2 : entityTemplate? e = none := by simp [entityTemplate?, he]
      rw [h1, List.filterMap_cons, h2]
    | some m =>
      have h2 : entityTemplate? e = some m.modelMaterialTemplateId := by
        simp [entityTemplate?, he]
      have h1 : ((s.add e).data.map MaterialEntityGroup.materialTemplateId).toFinset =
          (s.data.map MaterialEntityGroup.materialTemplateId).toFinset ∪
            {m.modelMaterialTemplateId} := by
        simp only [Scene.add, he]
        rw [insertEntity_ids]
        split
        · rename_i hmem
          rw [Finset.union_eq_left.mpr ?_]
          intro a ha
          rw [Finset.mem_singleton.mp ha]
          exact List.mem_toFinset.mpr hmem
        · rw [List.toFinset_append]
          rfl
      rw [h1, List.filterMap_cons, h2, List.toFinset_cons]
      ext a
      simp only [Finset.mem_union, Finset.mem_singleton, Finset.mem_insert, List.mem_toFinset]
      tauto

/-- C4: the number of material groups equals the number of distinct
material-template ids among the added mesh-carrying entities, independent of
the order of the `add` calls; and the end-to-end scenario of 25 entities of
one template plus 1 of another yields exactly the group sizes 25 and 1. -/
theorem c4_group_count (es es' : List Entity) (hperm : es.Perm es') :
    (sceneOf es).data.length = (sceneOf es').data.length ∧
    (sceneOf es).data.length = (es.filterMap entityTemplate?).toFinset.card ∧
    (sceneOf scenarioEntities).data.map (fun g => g.entities.length) = [25, 1] := by
  have key : ∀ l : List Entity,
      (sceneOf l).data.length = (l.filterMap entityTemplate?).toFinset.card := by
    intro l
    have hwf : SceneWf (sceneOf l) := foldl_add_wf l Scene.default wf_default
    have hids := foldl_add_ids_toFinset l Scene.default
    have hlen : (sceneOf l).data.length =
        ((sceneOf l).data.map MaterialEntityGroup.materialTemplateId).length :=
      (List.length_map _ _).symm
    rw [hlen, ← List.toFinset_card_of_nodup hwf.1, sceneOf, hids]
    simp [Scene.default]
  refine ⟨?_, key es, ?_⟩
  · rw [key es, key es',
      List.toFinset_eq_of_perm _ _ (hperm.filterMap entityTemplate?)]
  · decide

/-- Witness for C4: add order does not change the group count for the
scenario list. -/
theorem c4_group_count_witness :
    (sceneOf scenarioEntities).data.length = (sceneOf scenarioEntities.reverse).data.length := by
  exact (c4_group_count scenarioEntities scenarioEntities.reverse
    (List.reverse_perm scenarioEntities).symm).1

/-! ## C6: swapchain invalidation protocol -/

theorem createViews_length (env : RenderEnv) (imgs views : List Nat)
    (h : createViews env imgs = .ok views) : views.length = imgs.length := by
  induction imgs generalizing views with
  | nil =>
    rw [createViews] at h
    cases h
    rfl
  | cons img rest ih =>
    rw [createViews] at h
    cases hv : env.newImageView img with
    | error e => rw [hv] at h; cases h
    | ok v =>
      rw [hv] at h
      cases hr : createViews env rest with
      | error e => rw [hr] at h; cases h
      | ok vs =>
        rw [hr] at h
        cases h
        simp [ih vs hr]

theorem deliverAll_ok (ev : SwapchainEvent) (layers : List FrameLayer)
    (h : ∀ l ∈ layers, ∃ b, l.onEvent ev = .ok b) :
    ∀ i, deliverAll ev i layers = .ok (List.range' i layers.length) := by
  induction layers with
  | nil => intro i; rfl
  | cons l rest ih =>
    intro i
    obtain ⟨b, hb⟩ := h l (List.mem_cons_self l rest)
    rw [deliverAll, hb, ih (fun x hx => h x (List.mem_cons_of_mem l hx)) (i + 1)]
    rw [List.length_cons, List.range'_succ]

theorem drawChain_ok (fr : Nat × ViewportM) (layers : List FrameLayer)
    (h : ∀ l ∈ layers, ∀ f fr', ∃ v, l.onDraw f fr' = .ok v) :
    ∀ fut, ∃ v, drawChain fr layers fut = .ok v := by
  induction layers with
  | nil => exact fun fut => ⟨fut, rfl⟩
  | cons l rest ih =>
    intro fut
    obtain ⟨v, hv⟩ := h l (List.mem_cons_self l rest) fut fr
    obtain ⟨v', hv'⟩ := ih (fun x hx => h x (List.mem_cons_of_mem l hx)) v
    refine ⟨v', ?_⟩
    rw [drawChain, hv]
    exact hv'

/-- C6: after `invalidate_surface` followed by one `do_frame` in which the
external collaborators succeed, the context holds the recreated swapchain,
the number of per-image views equals the new swapchain's image count, the
viewport is rebuilt from the current surface size, and the
`SwapchainInvalidated` event carrying the updated views, viewport and
dimensions is delivered exactly once to every layer, in stack order,
regardless of what each layer's `on_event` returns. -/
theorem c6_swapchain_invalidation (env : RenderEnv) (layers : List FrameLayer)
    (ctx : VulkanContext) (sc : Nat) (imgs views : List Nat) (idx : Nat) (subopt : Bool)
    (hrec : env.recreateSwapchain env.innerSize = .ok (sc, imgs))
    (hviews : createViews env imgs = .ok views)
    (hev : ∀ l ∈ layers, ∃ b,
      l.onEvent ⟨views, createViewport env.innerSize, env.innerSize⟩ = .ok b)
    (hacq : env.acquireNextImage = .ok (idx, subopt))
    (hidx : idx < views.length)
    (hdraw : ∀ l ∈ layers, ∀ f fr, ∃ v, l.onDraw f fr = .ok v)
    (hflush : env.flushFrame = .ok ()) :
    ∃ ctx', VulkanContext.do_frame env layers ctx.invalidate_surface =
        some (.ok (ctx', List.range layers.length)) ∧
      ctx'.swapchain = sc ∧
      ctx'.swapchainImages = views ∧
      views.length = imgs.length ∧
      ctx'.viewport = createViewport env.innerSize := by
  have hlen := createViews_length env imgs views hviews
  have hctxR : VulkanContext.recreate_swapchain env ctx.invalidate_surface =
      .ok (⟨sc, views, createViewport env.innerSize, true⟩, env.innerSize) := by
    simp [VulkanContext.recreate_swapchain, VulkanContext.invalidate_surface, hrec, hviews]
  have hdel : deliverAll ⟨views, createViewport env.innerSize, env.innerSize⟩ 0 layers =
      .ok (List.range layers.length) := by
    rw [List.range_eq_range']
    exact deliverAll_ok _ layers hev 0
  obtain ⟨fut, hfut⟩ :=
    drawChain_ok (idx, createViewport env.innerSize) layers hdraw 0
  have hget : views[idx]? = some views[idx] := List.getElem?_eq_getElem hidx
  have hneed : (ctx.invalidate_surface).needSwapchainRecreation = true := rfl
  refine ⟨⟨sc, views, createViewport env.innerSize, true⟩, ?_, rfl, rfl, hlen, rfl⟩
  cases subopt with
  | false =>
    simp [VulkanContext.do_frame, hneed, hctxR, hdel, hacq, hget, hfut, hflush]
  | true =>
    simp [VulkanContext.do_frame, hneed, hctxR, hdel, hacq, hget, hfut, hflush]

/-- Witness for C6: a concrete context and two layers under the all-successful
render environment. -/
theorem c6_swapchain_invalidation_witness :
    ∃ ctx', VulkanContext.do_frame happyRenderEnv
        [⟨fun _ => .ok true, fun f _ => .ok f⟩, ⟨fun _ => .ok false, fun f _ => .ok f⟩]
        (VulkanContext.invalidate_surface ⟨9, [7], ⟨(0, 1), (1, -1), (0, 1)⟩, false⟩) =
        some (.ok (ctx', [0, 1])) ∧
      ctx'.swapchain = 50 ∧
      ctx'.swapchainImages = [1000, 1001, 1002] := by
  obtain ⟨ctx', h1, h2, h3, _, _⟩ :=
    c6_swapchain_invalidation happyRenderEnv
      [⟨fun _ => .ok true, fun f _ => .ok f⟩, ⟨fun _ => .ok false, fun f _ => .ok f⟩]
      ⟨9, [7], ⟨(0, 1), (1, -1), (0, 1)⟩, false⟩
      50 [0, 1, 2] [1000, 1001, 1002] 1 false
      rfl rfl
      (by
        intro l hl
        rcases List.mem_cons.mp hl with h | h
        · rw [h]; exact ⟨true, rfl⟩
        · rw [List.mem_singleton.mp h]; exact ⟨false, rfl⟩)
      rfl (by decide)
      (by
        intro l hl f fr
        rcases List.mem_cons.mp hl with h | h
        · rw [h]; exact ⟨f, rfl⟩
        · rw [List.mem_singleton.mp h]; exact ⟨f, rfl⟩)
      rfl
  exact ⟨ctx', h1, h2, h3⟩

/-! ## C10: Scene::instantiate_models drains the loading list -/

theorem insertEntity_count (gs : List MaterialEntityGroup) (tid : Nat) (e : Entity) :
    ((insertEntity gs tid e).map (fun g => g.entities.length)).sum =
      (gs.map (fun g => g.entities.length)).sum + 1 := by
  induction gs with
  | nil => simp [insertEntity]
  | cons g rest ih =>
    by_cases h : g.materialTemplateId = tid
    · simp [insertEntity, h]
      omega
    · rw [insertEntity, if_neg h, List.map_cons, List.sum_cons, ih, List.map_cons,
        List.sum_cons]
      omega

theorem add_meshed_loading (s : Scene) (e : Entity) (m : MeshObject) (hm : e.mesh = some m) :
    (s.add e).loadingList = s.loadingList := by
  simp [Scene.add, hm]

theorem add_meshed_count (s : Scene) (e : Entity) (m : MeshObject) (hm : e.mesh = some m) :
    (s.add e).groupedCount = s.groupedCount + 1 := by
  simp only [Scene.add, hm, Scene.groupedCount]
  exact insertEntity_count s.data m.modelMaterialTemplateId e

theorem wf_dropLast (s : Scene) (hwf : SceneWf s) :
    SceneWf { s with loadingList := s.loadingList.dropLast } := by
  refine ⟨hwf.1, hwf.2.1, ?_⟩
  intro e he
  exact hwf.2.2 e ((List.dropLast_sublist s.loadingList).mem he)

theorem instantiate_spec (env : InstantiateEnv) (reg : MaterialRegistry)
    (e : Entity) (p : MeshParameters)
    (hp : e.meshParameters = some p)
    (hreg : p.model.materialTemplateId < reg.data.length) :
    (∃ err, Entity.instantiate env reg e = some (.error err)) ∨
    (∃ mesh, Entity.instantiate env reg e =
        some (.ok { e with mesh := some mesh, meshParameters := none }) ∧
      mesh.model.materialTemplateId = p.model.materialTemplateId) := by
  cases hd : p.model.data with
  | host path =>
    cases hobj : env.loadObj path with
    | error err =>
      left
      refine ⟨err, ?_⟩
      have hml : Model.load env.loadObj p.model = (.error err, p.model) := by
        simp [Model.load, hd, hobj]
      simp [Entity.instantiate, hp, hml]
    | ok buf =>
      have hml : Model.load env.loadObj p.model =
          (.ok (), { p.model with data := .device buf }) := by
        simp [Model.load, hd, hobj]
      have hget : reg.get? ({ p.model with data := .device buf } : Model).materialTemplateId =
          some (reg.data.get ⟨p.model.materialTemplateId, hreg⟩) := by
        rw [MaterialRegistry.get?]
        exact List.get?_eq_get hreg
      cases halloc : env.allocMeshObject { p.model with data := .device buf }
          p.materialCreateInfo with
      | error err =>
        left
        refine ⟨err, ?_⟩
        simp [Entity.instantiate, hp, hml, MeshObject.new, hget, halloc]
      | ok handles =>
        obtain ⟨mb, mi, ms⟩ := handles
        cases hwt : env.writeTransform e.position with
        | error err =>
          left
          refine ⟨err, ?_⟩
          simp [Entity.instantiate, hp, hml, MeshObject.new, hget, halloc, hwt]
        | ok u =>
          right
          refine ⟨⟨{ p.model with data := .device buf }, mb, ms, mi⟩, ?_, rfl⟩
          simp [Entity.instantiate, hp, hml, MeshObject.new, hget, halloc, hwt]
  | device buf =>
    left
    refine ⟨.alreadyLoaded, ?_⟩
    have hml : Model.load env.loadObj p.model = (.error .alreadyLoaded, p.model) := by
      simp [Model.load, hd]
    simp [Entity.instantiate, hp, hml]

theorem drain_spec (env : InstantiateEnv) (reg : MaterialRegistry) :
    ∀ (fuel : Nat) (s : Scene), fuel = s.loadingList.length → SceneWf s →
    (∀ e ∈ s.loadingList, ∃ p, e.meshParameters = some p ∧
      p.model.materialTemplateId < reg.data.length) →
    ∃ r, drainFuel env reg fuel s = some r ∧
      (∀ s', r = .ok s' → s'.loadingList = [] ∧ SceneWf s' ∧
        s'.groupedCount = s.groupedCount + s.loadingList.length) ∧
      (∀ err s', r = .error (err, s') →
        s'.loadingList.length < s.loadingList.length ∧
        s'.loadingList = s.loadingList.take s'.loadingList.length ∧
        SceneWf s' ∧
        s'.groupedCount + s'.loadingList.length + 1 =
          s.groupedCount + s.loadingList.length) := by
  intro fuel
  induction fuel with
  | zero =>
    intro s hlen hwf _hparams
    have hnil : s.loadingList = [] := List.eq_nil_of_length_eq_zero hlen.symm
    refine ⟨.ok s, ?_, ?_, ?_⟩
    · simp [drainFuel, hnil]
    · intro s' h
      cases h
      exact ⟨hnil, hwf, by simp [hnil]⟩
    · intro err s' h
      cases h
  | succ fuel ih =>
    intro s hlen hwf hparams
    have hne : s.loadingList ≠ [] := by
      intro h
      rw [h] at hlen
      cases hlen
    have hlast : s.loadingList.getLast? = some (s.loadingList.getLast hne) :=
      List.getLast?_eq_getLast s.loadingList hne
    set e := s.loadingList.getLast hne with he_def
    have hemem : e ∈ s.loadingList := List.getLast_mem hne
    obtain ⟨p, hp, hreg⟩ := hparams e hemem
    have hyslen : s.loadingList.dropLast.length = fuel := by
      rw [List.length_dropLast]
      omega
    have hs'wf : SceneWf { s with loadingList := s.loadingList.dropLast } := wf_dropLast s hwf
    rcases instantiate_spec env reg e p hp hreg with ⟨err, hinst⟩ | ⟨mesh, hinst, _hmid⟩
    · refine ⟨.error (err, { s with loadingList := s.loadingList.dropLast }), ?_, ?_, ?_⟩
      · simp [drainFuel, hlast, hinst]
      · intro s' h
        cases h
      · intro err0 s'0 h
        injection h with h2
        injection h2 with hA hB
        subst hB
        refine ⟨?_, ?_, hs'wf, ?_⟩
        · simp only [List.length_dropLast]
          omega
        · simp only [List.length_dropLast]
          rw [List.dropLast_eq_take]
        · have hsame : ({ s with loadingList := s.loadingList.dropLast } : Scene).groupedCount =
            s.groupedCount := rfl
          simp only [hsame, List.length_dropLast]
          omega
    · obtain ⟨r, hdrain, hok, herr⟩ := ih
        (Scene.add { s with loadingList := s.loadingList.dropLast }
          { e with mesh := some mesh, meshParameters := none })
        (by
          rw [add_meshed_loading _ _ mesh rfl, List.length_dropLast]
          omega)
        (add_wf _ _ hs'wf)
        (by
          rw [add_meshed_loading _ _ mesh rfl]
          intro x hx
          exact hparams x ((List.dropLast_sublist s.loadingList).mem hx))
      have htload : (Scene.add { s with loadingList := s.loadingList.dropLast }
          { e with mesh := some mesh, meshParameters := none }).loadingList =
          s.loadingList.dropLast := add_meshed_loading _ _ mesh rfl
      have htcount : (Scene.add { s with loadingList := s.loadingList.dropLast }
          { e with mesh := some mesh, meshParameters := none }).groupedCount =
          s.groupedCount + 1 := add_meshed_count _ _ mesh rfl
      refine ⟨r, ?_, ?_, ?_⟩
      · simp only [drainFuel, hlast, hinst]
        exact hdrain
      · intro s' h
        obtain ⟨hA, hB, hC⟩ := hok s' h
        refine ⟨hA, hB, ?_⟩
        rw [htcount, htload, List.length_dropLast] at hC
        rw [hC]
        omega
      · intro err0 s'0 h
        obtain ⟨h1, h2, h3, h4⟩ := herr err0 s'0 h
        rw [htload] at h1 h2
        rw [htcount, htload, List.length_dropLast] at h4
        rw [List.length_dropLast] at h1
        have hk : s'0.loadingList.length ≤ s.loadingList.length - 1 := by omega
        refine ⟨by omega, ?_, h3, by omega⟩
        calc s'0.loadingList
            = s.loadingList.dropLast.take s'0.loadingList.length := h2
          _ = (s.loadingList.take (s.loadingList.length - 1)).take s'0.loadingList.length := by
              rw [List.dropLast_eq_take]
          _ = s.loadingList.take (min s'0.loadingList.length (s.loadingList.length - 1)) := by
              rw [List.take_take]
          _ = s.loadingList.take s'0.loadingList.length := by
              rw [min_eq_left hk]

/-- C10: `Scene::instantiate_models` drains the loading list. On success the
loading list is empty, the scene invariant holds (so every formerly pending
entity now sits, mesh instantiated, in exactly one group whose id matches its
material template), and the grouped-entity count has grown by exactly the
number of formerly pending entities. On failure the error is propagated with
the failing entity already popped from the loading list but added to no group
— the entities drained before the failure remain in their groups, the
not-yet-drained prefix remains on the loading list, and no rollback occurs. -/
theorem c10_instantiate_models (env : InstantiateEnv) (reg : MaterialRegistry) (s : Scene)
    (hwf : SceneWf s)
    (hparams : ∀ e ∈ s.loadingList, ∃ p, e.meshParameters = some p ∧
      p.model.materialTemplateId < reg.data.length) :
    ∃ r, Scene.instantiate_models env reg s = some r ∧
      (∀ s', r = .ok s' → s'.loadingList = [] ∧ SceneWf s' ∧
        (∀ g ∈ s'.data, ∀ x ∈ g.entities, ∃! g', g' ∈ s'.data ∧ x ∈ g'.entities) ∧
        s'.groupedCount = s.groupedCount + s.loadingList.length) ∧
      (∀ err s', r = .error (err, s') →
        s'.loadingList.length < s.loadingList.length ∧
        s'.loadingList = s.loadingList.take s'.loadingList.length ∧
        SceneWf s' ∧
        s'.groupedCount + s'.loadingList.length + 1 =
          s.groupedCount + s.loadingList.length) := by
  obtain ⟨r, hdrain, hok, herr⟩ :=
    drain_spec env reg s.loadingList.length s rfl hwf hparams
  refine ⟨r, hdrain, ?_, herr⟩
  intro s' h
  obtain ⟨hA, hB, hC⟩ := hok s' h
  refine ⟨hA, hB, ?_, hC⟩
  intro g hg x hx
  exact ⟨g, ⟨hg, hx⟩, fun g'' hg'' => wf_unique_group s' hB x g'' g hg''.1 hg hg''.2 hx⟩

/-- Witness for C10: a scene holding one pending host-resident entity drains
successfully under the all-successful environment. -/
theorem c10_instantiate_models_witness :
    ∃ r, Scene.instantiate_models happyInstantiateEnv oneTemplateRegistry
        ⟨[], [pendingEntity]⟩ = some r ∧
      (∀ s', r = .ok s' → s'.loadingList = []) := by
  obtain ⟨r, h1, h2, _⟩ :=
    c10_instantiate_models happyInstantiateEnv oneTemplateRegistry ⟨[], [pendingEntity]⟩
      ⟨by simp, by simp, by
        intro e he
        rw [List.mem_singleton.mp he]
        rfl⟩
      (by
        intro e he
        rw [List.mem_singleton.mp he]
        exact ⟨_, rfl, by decide⟩)
  exact ⟨r, h1, fun s' hs' => (h2 s' hs').1⟩

end Proper
